import Mathlib

/-!
Verification development for the confd template-resource pipeline
(pkg/template/resource.go and pkg/util of the confd fork with afero
filesystem support).

The Go code is shallowly embedded: the abstract (afero) filesystem becomes an
explicit state value with fault-injection sets, shell-command execution and
template rendering become environment records of pure functions, and each Go
function of the resource lifecycle (setFileMode, setVars, CreateStageFile,
sync, check, NewTemplateResource) becomes a pure state-passing Lean function
translated line by line from the source.

Go standard-library helpers used by the source (strings.Contains,
strings.TrimPrefix, path.Join / path.Clean, filepath.Dir / filepath.Base,
strconv.ParseUint) are modelled below by executable Lean functions that follow
their documented semantics.
-/

set_option maxRecDepth 8000

/-- Go strings.Contains, on character lists: does pat occur as a contiguous
substring of s (the empty pattern occurs in every string). -/
def listContainsSub : List Char → List Char → Bool
  | [], pat => pat.isEmpty
  | s@(_ :: rest), pat => pat.isPrefixOf s || listContainsSub rest pat

/-- Go strings.Contains on strings. -/
def strContainsSub (s pat : String) : Bool :=
  listContainsSub s.data pat.data

/-- Go strings.TrimPrefix: drop pre from the front of s when it is a prefix,
otherwise return s unchanged. -/
def goTrimPfx (s pre : String) : String :=
  if pre.data.isPrefixOf s.data then ⟨s.data.drop pre.data.length⟩ else s

/-- Split a character list on the slash character; used to model Go path
cleaning. -/
def splitSlashAux : List Char → List Char → List (List Char)
  | [], cur => [cur.reverse]
  | c :: rest, cur =>
    if c = '/' then cur.reverse :: splitSlashAux rest []
    else splitSlashAux rest (c :: cur)

/-- The slash-separated components of a path string. -/
def splitParts (p : String) : List String :=
  (splitSlashAux p.data []).map (fun cs => ⟨cs⟩)

/-- The element-processing loop of Go path.Clean: empty and dot components are
dropped, dotdot pops a previous real component (or is dropped at the root, or
kept when nothing can be popped in a relative path). The stack is built in
reverse. -/
def cleanAux (rooted : Bool) : List String → List String → List String
  | [], stack => stack.reverse
  | p :: rest, stack =>
    if p = "" ∨ p = "." then cleanAux rooted rest stack
    else if p = ".." then
      match stack with
      | [] => if rooted then cleanAux rooted rest [] else cleanAux rooted rest [".."]
      | top :: tl =>
        if top = ".." then cleanAux rooted rest (".." :: top :: tl)
        else cleanAux rooted rest tl
    else cleanAux rooted rest (p :: stack)

/-- Join path components with slashes. -/
def joinSlash : List String → String
  | [] => ""
  | [p] => p
  | p :: rest => p ++ "/" ++ joinSlash rest

/-- Does the string start with a slash. -/
def startsWithSlash (s : String) : Bool :=
  match s.data with
  | '/' :: _ => true
  | _ => false

/-- Go path.Clean by its documented algorithm: returns the shortest path name
equivalent to the input by purely lexical processing. -/
def pathClean (p : String) : String :=
  if p = "" then "."
  else
    let rooted := startsWithSlash p
    let stack := cleanAux rooted (splitParts p) []
    if stack = [] then (if rooted then "/" else ".")
    else (if rooted then "/" else "") ++ joinSlash stack

/-- Go path.Join on two elements: empty elements are skipped and the
concatenation is cleaned. On unix, filepath.Join agrees with this. -/
def goPathJoin2 (a b : String) : String :=
  if a = "" then (if b = "" then "" else pathClean b)
  else pathClean (a ++ "/" ++ b)

/-- The prefix of cs up to and including its last slash, empty when there is
no slash. -/
def takeUntilLastSlash (cs : List Char) : List Char :=
  (cs.reverse.dropWhile (fun c => ¬ c = '/')).reverse

/-- Go filepath.Dir: everything up to the final slash, cleaned; "." when the
path holds no slash. -/
def goDir (p : String) : String :=
  pathClean ⟨takeUntilLastSlash p.data⟩

/-- Go filepath.Base: the last element of the path after stripping trailing
slashes; "." for the empty path, "/" when the path is all slashes. -/
def goBase (p : String) : String :=
  if p = "" then "."
  else
    let cs := p.data.reverse.dropWhile (fun c => c = '/')
    if cs = [] then "/"
    else ⟨(cs.takeWhile (fun c => ¬ c = '/')).reverse⟩

/-- Value of a hexadecimal digit character. -/
def digitVal (c : Char) : Option Nat :=
  if '0' ≤ c ∧ c ≤ '9' then some (c.toNat - 48)
  else if 'a' ≤ c ∧ c ≤ 'f' then some (c.toNat - 87)
  else if 'A' ≤ c ∧ c ≤ 'F' then some (c.toNat - 55)
  else none

/-- Accumulate digits in the given base; fails on a non-digit or a digit not
below the base. An empty digit list yields the accumulator. -/
def parseDigits (base : Nat) : List Char → Nat → Option Nat
  | [], acc => some acc
  | c :: rest, acc =>
    match digitVal c with
    | some d => if d < base then parseDigits base rest (acc * base + d) else none
    | none => none

/-- Go strconv.ParseUint with base 0 and bitSize 32, as called by setFileMode:
base is detected from the leading characters (0x hex, 0o octal, 0b binary, a
leading 0 octal, otherwise decimal) and the value must fit in 32 bits.
Digit-separating underscores, which Go also accepts in base-0 mode, are not
modelled; mode strings in descriptors do not use them. -/
def parseUintBase0 (s : String) : Option Nat :=
  let core : List Char → Option Nat := fun cs =>
    match cs with
    | [] => none
    | ['0'] => some 0
    | '0' :: c :: rest =>
      if c = 'x' ∨ c = 'X' then (if rest = [] then none else parseDigits 16 rest 0)
      else if c = 'o' ∨ c = 'O' then (if rest = [] then none else parseDigits 8 rest 0)
      else if c = 'b' ∨ c = 'B' then (if rest = [] then none else parseDigits 2 rest 0)
      else parseDigits 8 (c :: rest) 0
    | cs => parseDigits 10 cs 0
  match core s.data with
  | some v => if v < 2 ^ 32 then some v else none
  | none => none

/-- A regular file of the abstract (afero) filesystem: byte content (modelled
as a string), permission mode bits, and numeric owner and group. -/
structure GoFile where
  content : String
  mode : Nat
  uid : Int
  gid : Int
deriving DecidableEq, Repr

/-- The abstract filesystem state. files is the path-to-file map. The fail*
sets inject filesystem faults: paths where open-for-read, create/write, chmod
or chown fail, as the afero contract allows any operation to fail. renameErr
injects rename failures keyed by destination path with the error message the
platform reports (e.g. a busy mount). euid/egid are the effective ids files
are created with. tempSeed is the unique random suffix the next temp-file
creation uses. -/
structure Sys where
  files : List (String × GoFile)
  failOpen : List String
  failWrite : List String
  failChmod : List String
  failChown : List String
  renameErr : List (String × String)
  euid : Int
  egid : Int
  tempSeed : String
deriving DecidableEq, Repr

/-- Look up the file at a path. -/
def lookupFile (s : Sys) (p : String) : Option GoFile :=
  (s.files.find? (fun kv => kv.1 = p)).map (fun kv => kv.2)

/-- Bind a path to a file, replacing any previous binding. -/
def setFile (s : Sys) (p : String) (f : GoFile) : Sys :=
  { s with files := (p, f) :: s.files.filter (fun kv => ¬ kv.1 = p) }

/-- Remove the binding at a path (a no-op when absent, as callers in the
source ignore the error of Remove). -/
def removeFile (s : Sys) (p : String) : Sys :=
  { s with files := s.files.filter (fun kv => ¬ kv.1 = p) }

/-- Modelled from the spec: util.IsFileExist is not under src/ (only its
callers are). Spec section 6: the virtual-filesystem contract supplies stat;
existence is whether stat succeeds. -/
def IsFileExist (s : Sys) (p : String) : Bool :=
  (lookupFile s p).isSome

/-- afero stat on a path: the file, or an error when it does not exist. -/
def sysStat (s : Sys) (p : String) : Except String GoFile :=
  match lookupFile s p with
  | some f => Except.ok f
  | none => Except.error ("stat " ++ p ++ ": no such file or directory")

/-- afero open-for-read followed by reading the full content, as
afero.ReadFile does; fails on a missing file or an injected open fault. -/
def aferoReadFile (s : Sys) (p : String) : Except String String :=
  if p ∈ s.failOpen then Except.error ("open " ++ p ++ ": injected fault")
  else
    match lookupFile s p with
    | some f => Except.ok f.content
    | none => Except.error ("open " ++ p ++ ": file does not exist")

/-- afero.WriteFile: a truncating write. An existing file keeps its mode and
ownership (the mode argument applies only on creation, per the O_CREATE
contract); a created file gets the given mode and the effective ids. -/
def aferoWriteFile (s : Sys) (p : String) (content : String) (mode : Nat) :
    Except String Sys :=
  if p ∈ s.failWrite then Except.error ("open " ++ p ++ ": injected fault")
  else
    match lookupFile s p with
    | some f => Except.ok (setFile s p { f with content := content })
    | none =>
      Except.ok (setFile s p { content := content, mode := mode, uid := s.euid, gid := s.egid })

/-- afero rename: moves the file (with its mode and ownership) onto the
destination path, or fails with the injected platform error message for that
destination. -/
def sysRename (s : Sys) (src dst : String) : Except String Sys :=
  match (s.renameErr.find? (fun kv => kv.1 = dst)).map (fun kv => kv.2) with
  | some msg => Except.error msg
  | none =>
    match lookupFile s src with
    | none => Except.error ("rename " ++ src ++ " " ++ dst ++ ": no such file or directory")
    | some f => Except.ok (setFile (removeFile s src) dst f)

/-- afero chmod; fails on an injected fault or a missing file. -/
def sysChmod (s : Sys) (p : String) (mode : Nat) : Except String Sys :=
  if p ∈ s.failChmod then Except.error ("chmod " ++ p ++ ": injected fault")
  else
    match lookupFile s p with
    | some f => Except.ok (setFile s p { f with mode := mode })
    | none => Except.error ("chmod " ++ p ++ ": no such file or directory")

/-- afero chown; fails on an injected fault or a missing file. -/
def sysChown (s : Sys) (p : String) (uid gid : Int) : Except String Sys :=
  if p ∈ s.failChown then Except.error ("chown " ++ p ++ ": injected fault")
  else
    match lookupFile s p with
    | some f => Except.ok (setFile s p { f with uid := uid, gid := gid })
    | none => Except.error ("chown " ++ p ++ ": no such file or directory")

/-- chmod with the error discarded, as the call sites in CreateStageFile do. -/
def chmodIgnore (s : Sys) (p : String) (mode : Nat) : Sys :=
  match sysChmod s p mode with
  | Except.ok s1 => s1
  | Except.error _ => s

/-- chown with the error discarded, as the call sites in CreateStageFile and
the busy-rename fallback of sync do. -/
def chownIgnore (s : Sys) (p : String) (uid gid : Int) : Sys :=
  match sysChown s p uid gid with
  | Except.ok s1 => s1
  | Except.error _ => s

/-- The stat record computed by util.FileStat: numeric owner and group, mode,
and the md5 content digest. -/
structure GoFileInfo where
  uid : Int
  gid : Int
  mode : Nat
  md5 : String
deriving DecidableEq, Repr

/-- Embedding of util.FileStat (src/pkg/util/filestat_posix.go): when the file
exists, open it, read uid, gid and mode from stat, and digest the content;
otherwise report "File not found". The md5 digest is modelled as the content
itself, an injective fingerprint, so digest equality is content equality. -/
def FileStat (s : Sys) (p : String) : Except String GoFileInfo :=
  if IsFileExist s p then
    if p ∈ s.failOpen then Except.error ("open " ++ p ++ ": injected fault")
    else
      match lookupFile s p with
      | some f => Except.ok { uid := f.uid, gid := f.gid, mode := f.mode, md5 := f.content }
      | none => Except.error "File not found"
  else Except.error "File not found"

/-- Modelled from the spec: util.IsConfigChanged is not under src/ (only its
tests and its caller sync are). Spec section 4.4 step 4: a missing destination
is always "changed"; otherwise the decision compares the two files by content
fingerprint and nothing else, fingerprint equality meaning unchanged. The Go
signature returns (bool, error); on a stat failure the pair carries the error,
with the changed verdict (the defensive default of the missing code is
"changed"), and the caller decides what to do with the error. -/
def IsConfigChanged (s : Sys) (staged dest : String) : Bool × Option String :=
  if ¬ IsFileExist s dest then (true, none)
  else
    match FileStat s dest with
    | Except.error e => (true, some e)
    | Except.ok d =>
      match FileStat s staged with
      | Except.error e => (true, some e)
      | Except.ok st => (decide (¬ d.md5 = st.md5), none)

/-- The embedded TemplateResource record (resource.go): the descriptor fields
plus the processing fields populated during a cycle (fileMode from
setFileMode, stageFileName from CreateStageFile, store from setVars) and the
flags copied from the processing configuration. -/
structure TemplateResource where
  checkCmd : String
  dest : String
  fileMode : Nat
  gid : Int
  group : String
  keys : List String
  mode : String
  owner : String
  pfx : String
  reloadCmd : String
  src : String
  stageFileName : String
  uid : Int
  keepStageFile : Bool
  noop : Bool
  store : List (String × String)
  syncOnly : Bool
deriving Repr

/-- The backend store client collaborator: GetValues maps prefix-qualified
keys to a flat key-value mapping or fails. -/
structure StoreClient where
  getValues : List String → Except String (List (String × String))

/-- The shell-command collaborator: runCommand hands the command string to the
host shell and reports combined success or the failure (nonzero exit or
failure to execute). -/
structure CmdEnv where
  run : String → Except String Unit

/-- The text/template collaborator for the source template, keyed by the
template source text: parse reports a syntax check, execute produces the
rendered bytes or a render failure. -/
structure RenderEnv where
  parse : String → Except String Unit
  execute : String → Except String String

/-- memkv Store.Set: bind a key to a value, replacing any previous binding. -/
def storeSet (st : List (String × String)) (k v : String) : List (String × String) :=
  (k, v) :: st.filter (fun kv => ¬ kv.1 = k)

/-- memkv point lookup on the embedded store. -/
def storeGet (st : List (String × String)) (k : String) : Option String :=
  (st.find? (fun kv => kv.1 = k)).map (fun kv => kv.2)

/-- Modelled from the spec: util.AppendPrefix is not under src/ (only its
caller setVars is). Spec section 4.2: the backend is called with the resource
prefix-qualified keys, each key joined under the prefix. -/
def AppendPfx (pfx : String) (keys : List String) : List String :=
  keys.map (fun k => goPathJoin2 pfx k)

/-- The store key under which setVars inserts a backend key: the configured
prefix stripped and the remainder re-rooted under "/", exactly
path.Join("/", strings.TrimPrefix(k, prefix)) of the source. -/
def normKey (pfx k : String) : String :=
  goPathJoin2 "/" (goTrimPfx k pfx)

/-- Embedding of setVars (resource.go lines 141-158): call GetValues with the
prefix-qualified keys; on failure return the error with the resource (and its
store) untouched; on success purge the store and insert every returned key
with the prefix stripped and the remainder re-rooted under "/". The Go map
iteration order is unspecified; insertion is modelled in list order. -/
def setVars (client : StoreClient) (t : TemplateResource) :
    Except String Unit × TemplateResource :=
  match client.getValues (AppendPfx t.pfx t.keys) with
  | Except.error e => (Except.error e, t)
  | Except.ok result =>
    (Except.ok (),
     { t with store :=
        result.foldl (fun st kv => storeSet st (normKey t.pfx kv.1) kv.2) [] })

/-- The unique temp-file name afero.TempFile produces in CreateStageFile: the
destination directory joined with a dot, the destination base name, and the
unique random suffix. -/
def tempName (s : Sys) (dest : String) : String :=
  goPathJoin2 (goDir dest) ("." ++ goBase dest ++ s.tempSeed)

/-- Embedding of CreateStageFile (resource.go lines 164-197): check the source
template exists, parse it, create the temp file in the destination directory,
execute the template into it (removing the temp file on a render failure), and
apply the resolved mode and ownership to the temp file with the chmod and
chown errors discarded, exactly as in the source. On success the staged file
name is recorded on the resource. -/
def CreateStageFile (env : RenderEnv) (t : TemplateResource) (s : Sys) :
    Except String Unit × TemplateResource × Sys :=
  if ¬ IsFileExist s t.src then
    (Except.error ("Missing template: " ++ t.src), t, s)
  else
    let srcText := match lookupFile s t.src with
      | some f => f.content
      | none => ""
    match env.parse srcText with
    | Except.error e =>
      (Except.error ("Unable to process template " ++ t.src ++ ", " ++ e), t, s)
    | Except.ok _ =>
      let tmp := tempName s t.dest
      if tmp ∈ s.failWrite then
        (Except.error ("open " ++ tmp ++ ": injected fault"), t, s)
      else
        let s1 := setFile s tmp { content := "", mode := 384, uid := s.euid, gid := s.egid }
        match env.execute srcText with
        | Except.error e => (Except.error e, t, removeFile s1 tmp)
        | Except.ok bytes =>
          let s2 := setFile s1 tmp { content := bytes, mode := 384, uid := s.euid, gid := s.egid }
          let s3 := chmodIgnore s2 tmp t.fileMode
          let s4 := chownIgnore s3 tmp t.uid t.gid
          (Except.ok (), { t with stageFileName := tmp }, s4)

/-- Embedding of check (resource.go lines 268-280): the check command template
is rendered with the staged file path bound to src and then run through the
shell. The text/template substitution is modelled as literal replacement of
the placeholder. -/
def replaceChars : Nat → List Char → List Char → List Char → List Char
  | 0, s, _, _ => s
  | _ + 1, [], _, _ => []
  | fuel + 1, c :: rest, pat, repl =>
    if ¬ pat = [] ∧ pat.isPrefixOf (c :: rest) then
      repl ++ replaceChars fuel ((c :: rest).drop pat.length) pat repl
    else c :: replaceChars fuel rest pat repl

/-- Go strings-style replacement of every occurrence of pat by repl. -/
def strReplace (s pat repl : String) : String :=
  ⟨replaceChars s.data.length s.data pat.data repl.data⟩

/-- The rendered check command: the placeholder for the staged path replaced
by the staged file name. -/
def renderCheckCmd (cmd staged : String) : String :=
  strReplace cmd "\x7b\x7b.src\x7d\x7d" staged

/-- Embedding of check: render the check command and run it. -/
def runCheck (env : CmdEnv) (t : TemplateResource) : Except String Unit :=
  env.run (renderCheckCmd t.checkCmd t.stageFileName)

/-- Embedding of the reload tail of sync (resource.go lines 250-255): when not
sync-only and a reload command is configured, run it and propagate its
failure; otherwise succeed. -/
def syncReload (env : CmdEnv) (t : TemplateResource) (s : Sys) :
    Except String Unit × Sys :=
  if t.syncOnly = false ∧ ¬ t.reloadCmd = "" then
    match env.run t.reloadCmd with
    | Except.error e => (Except.error e, s)
    | Except.ok _ => (Except.ok (), s)
  else (Except.ok (), s)

/-- Embedding of the commit part of sync (resource.go lines 228-255): rename
the staged file onto the destination; when the rename error message contains
"device or resource busy", fall back to reading the staged content and
truncating-writing it over the destination with the resolved mode, then chown
the destination with the error discarded, returning the write error when the
write failed; any other rename error is returned. A successful commit falls
through to the reload step. -/
def syncCommit (env : CmdEnv) (t : TemplateResource) (s : Sys) :
    Except String Unit × Sys :=
  match sysRename s t.stageFileName t.dest with
  | Except.ok s1 => syncReload env t s1
  | Except.error e =>
    if strContainsSub e "device or resource busy" then
      match aferoReadFile s t.stageFileName with
      | Except.error rerr => (Except.error rerr, s)
      | Except.ok contents =>
        match aferoWriteFile s t.dest contents t.fileMode with
        | Except.ok s1 => syncReload env t (chownIgnore s1 t.dest t.uid t.gid)
        | Except.error werr => (Except.error werr, chownIgnore s t.dest t.uid t.gid)
    else (Except.error e, s)

/-- Embedding of sync (resource.go lines 204-260), translated line by line:
compare the candidate to the destination (a comparison error is only logged,
lines 214-216, so the pair error component is dropped here exactly as the
source drops it); under noop return success immediately; when changed, run the
check gate (not sync-only and a check command configured), then commit and
reload; when unchanged, succeed. The deferred Remove of the staged file runs
on every path unless keepStageFile is set. -/
def sync (env : CmdEnv) (t : TemplateResource) (s : Sys) :
    Except String Unit × Sys :=
  let cmp := IsConfigChanged s t.stageFileName t.dest
  let r :=
    if t.noop = true then (Except.ok (), s)
    else if cmp.1 = true then
      if t.syncOnly = false ∧ ¬ t.checkCmd = "" then
        match runCheck env t with
        | Except.error e => (Except.error ("Config check failed: " ++ e), s)
        | Except.ok _ => syncCommit env t s
      else syncCommit env t s
    else (Except.ok (), s)
  (r.1, if t.keepStageFile = true then r.2 else removeFile r.2 t.stageFileName)

/-- Embedding of setFileMode (resource.go lines 332-351): with no explicit
mode, a missing destination resolves to 0644 (420) and an existing one to its
current stat mode; an explicit mode string is parsed as a base-0 unsigned
number, failing the cycle when parsing fails. -/
def setFileMode (t : TemplateResource) (s : Sys) : Except String TemplateResource :=
  if t.mode = "" then
    if ¬ IsFileExist s t.dest then Except.ok { t with fileMode := 420 }
    else
      match sysStat s t.dest with
      | Except.error e => Except.error e
      | Except.ok fi => Except.ok { t with fileMode := fi.mode }
  else
    match parseUintBase0 t.mode with
    | none => Except.error ("strconv.ParseUint: parsing " ++ t.mode ++ ": invalid syntax")
    | some m => Except.ok { t with fileMode := m }

/-- The processing configuration handed to NewTemplateResource; the store
client is optional to model the nil check of the source. -/
structure ProcessConfig where
  keepStageFile : Bool
  noop : Bool
  pfx : String
  storeClient : Option StoreClient
  syncOnly : Bool
  templateDir : String

/-- The raw descriptor record produced by TOML decoding, with the -1
sentinels for uid and gid preset before decoding as in the source. -/
structure RawResource where
  checkCmd : String
  dest : String
  gid : Int
  group : String
  keys : List String
  mode : String
  owner : String
  pfx : String
  reloadCmd : String
  src : String
  uid : Int
deriving Repr

/-- The system identity directory collaborator of NewTemplateResource: lookup
of symbolic owner and group names and the effective process ids. -/
structure UserEnv where
  lookupUser : String → Except String Int
  lookupGroup : String → Except String Int
  euid : Int
  egid : Int

/-- Embedding of NewTemplateResource (resource.go lines 69-138): a nil store
client fails before anything else (in particular before the descriptor is
decoded); a decode failure is wrapped; the processing-configuration prefix
overrides the descriptor prefix and the prefix is normalized to start with
"/"; an empty src fails; the -1 uid/gid sentinels resolve through the symbolic
owner/group names or default to the effective ids; src is joined under the
template directory. The decoded descriptor is passed as a value so that the
result provably does not depend on it when the client is nil. -/
def NewTemplateResource (uenv : UserEnv) (decoded : Except String RawResource)
    (config : ProcessConfig) : Except String TemplateResource :=
  match config.storeClient with
  | none => Except.error "A valid StoreClient is required."
  | some _ =>
    match decoded with
    | Except.error e => Except.error ("Cannot process template resource - " ++ e)
    | Except.ok raw =>
      let pfx0 := if ¬ config.pfx = "" then config.pfx else raw.pfx
      let pfx1 := if startsWithSlash pfx0 then pfx0 else "/" ++ pfx0
      if raw.src = "" then Except.error "empty src template"
      else
        let uidRes : Except String Int :=
          if raw.uid = -1 then
            if ¬ raw.owner = "" then
              match uenv.lookupUser raw.owner with
              | Except.error e => Except.error ("Cannot find owner UID - " ++ e)
              | Except.ok u => Except.ok u
            else Except.ok uenv.euid
          else Except.ok raw.uid
        match uidRes with
        | Except.error e => Except.error e
        | Except.ok uid =>
          let gidRes : Except String Int :=
            if raw.gid = -1 then
              if ¬ raw.group = "" then
                match uenv.lookupGroup raw.group with
                | Except.error e => Except.error ("Cannot find group GID - " ++ e)
                | Except.ok g => Except.ok g
              else Except.ok uenv.egid
            else Except.ok raw.gid
          match gidRes with
          | Except.error e => Except.error e
          | Except.ok gid =>
            Except.ok
              { checkCmd := raw.checkCmd
                dest := raw.dest
                fileMode := 0
                gid := gid
                group := raw.group
                keys := raw.keys
                mode := raw.mode
                owner := raw.owner
                pfx := pfx1
                reloadCmd := raw.reloadCmd
                src := goPathJoin2 config.templateDir raw.src
                stageFileName := ""
                uid := uid
                keepStageFile := config.keepStageFile
                noop := config.noop
                store := []
                syncOnly := config.syncOnly }

/-- Embedding of process (resource.go lines 315-329): resolve the file mode,
refresh the store, stage the candidate, and sync, stopping at the first
error. -/
def processCycle (cenv : CmdEnv) (renv : RenderEnv) (client : StoreClient)
    (t : TemplateResource) (s : Sys) : Except String Unit × Sys :=
  match setFileMode t s with
  | Except.error e => (Except.error e, s)
  | Except.ok t1 =>
    match setVars client t1 with
    | (Except.error e, _) => (Except.error e, s)
    | (Except.ok _, t2) =>
      match CreateStageFile renv t2 s with
      | (Except.error e, _, s1) => (Except.error e, s1)
      | (Except.ok _, t3, s1) => sync cenv t3 s1

/-! Association-list lemmas shared by the filesystem and the store. -/

/-- find? after filtering out one key: the removed key is never found, every
other key is found as before. -/
theorem assocFind_filter {α : Type} (l : List (String × α)) (p q : String) :
    (l.filter (fun kv => ¬ kv.1 = p)).find? (fun kv => kv.1 = q) =
      if q = p then none else l.find? (fun kv => kv.1 = q) := by
  induction l with
  | nil => by_cases h : q = p <;> simp [h]
  | cons hd tl ih =>
    by_cases hp : hd.1 = p <;> by_cases hq : hd.1 = q <;>
      by_cases hqp : q = p <;>
      simp_all [List.filter_cons, List.find?]

/-- Looking up after setFile: the bound path sees the new file, the rest is
unchanged. -/
theorem lookupFile_setFile (s : Sys) (p q : String) (f : GoFile) :
    lookupFile (setFile s p f) q = if q = p then some f else lookupFile s q := by
  by_cases h : q = p
  · subst h; simp [lookupFile, setFile, List.find?]
  · have hp : ¬ p = q := fun hh => h hh.symm
    simp only [lookupFile, setFile, List.find?, decide_eq_false hp, if_neg h]
    rw [assocFind_filter, if_neg h]

/-- Looking up after removeFile: the removed path is gone, the rest is
unchanged. -/
theorem lookupFile_removeFile (s : Sys) (p q : String) :
    lookupFile (removeFile s p) q = if q = p then none else lookupFile s q := by
  simp only [lookupFile, removeFile]
  rw [assocFind_filter]
  by_cases h : q = p <;> simp [h]

/-- storeGet after storeSet: the set key sees the new value, the rest is
unchanged. -/
theorem storeGet_storeSet (st : List (String × String)) (k v q : String) :
    storeGet (storeSet st k v) q = if q = k then some v else storeGet st q := by
  by_cases h : q = k
  · subst h; simp [storeGet, storeSet, List.find?]
  · have hp : ¬ k = q := fun hh => h hh.symm
    simp only [storeGet, storeSet, List.find?, decide_eq_false hp, if_neg h]
    rw [assocFind_filter, if_neg h]

/-- Presence in the store built by the setVars insertion loop: a key is bound
after the fold exactly when some backend entry normalizes to it or it was
already bound. -/
theorem storeFold_isSome (pfx : String) (result : List (String × String))
    (acc : List (String × String)) (q : String) :
    (storeGet (result.foldl (fun st kv => storeSet st (normKey pfx kv.1) kv.2) acc) q).isSome =
      (result.any (fun kv => normKey pfx kv.1 = q) || (storeGet acc q).isSome) := by
  induction result generalizing acc with
  | nil => simp
  | cons kv rest ih =>
    simp only [List.foldl_cons, List.any_cons, ih, storeGet_storeSet]
    by_cases h : q = normKey pfx kv.1
    · simp [h]
    · have h2 : ¬ normKey pfx kv.1 = q := fun hh => h hh.symm
      simp [h, h2]

/-- The setVars insertion loop does not touch keys no backend entry
normalizes to. -/
theorem storeFold_untouched (pfx : String) (result : List (String × String))
    (acc : List (String × String)) (q : String)
    (h : ∀ kv ∈ result, ¬ normKey pfx kv.1 = q) :
    storeGet (result.foldl (fun st kv => storeSet st (normKey pfx kv.1) kv.2) acc) q =
      storeGet acc q := by
  induction result generalizing acc with
  | nil => rfl
  | cons kv rest ih =>
    simp only [List.foldl_cons]
    rw [ih _ (fun x hx => h x (List.mem_cons_of_mem kv hx)), storeGet_storeSet,
      if_neg (fun hh => h kv (List.mem_cons_self kv rest) hh.symm)]

/-- Value of a backend entry after the setVars insertion loop, when the
normalized keys of the backend result are distinct. -/
theorem storeFold_value (pfx : String) (result : List (String × String))
    (acc : List (String × String)) (k v : String)
    (hmem : (k, v) ∈ result)
    (hnd : (result.map (fun kv => normKey pfx kv.1)).Nodup) :
    storeGet (result.foldl (fun st kv => storeSet st (normKey pfx kv.1) kv.2) acc)
      (normKey pfx k) = some v := by
  induction result generalizing acc with
  | nil => cases hmem
  | cons kv rest ih =>
    simp only [List.foldl_cons]
    rcases List.mem_cons.mp hmem with heq | hrest
    · subst heq
      rw [storeFold_untouched]
      · rw [storeGet_storeSet, if_pos rfl]
      · intro x hx hnorm
        have hni := (List.nodup_cons.mp hnd).1
        apply hni
        show normKey pfx k ∈ List.map (fun kv => normKey pfx kv.1) rest
        rw [← hnorm]
        exact List.mem_map_of_mem (fun kv => normKey pfx kv.1) hx
    · exact ih _ hrest (List.nodup_cons.mp hnd).2

/-! Concrete fixtures shared by witnesses and counterexamples. -/

/-- An empty filesystem with no injected faults. -/
def emptySys : Sys :=
  { files := [], failOpen := [], failWrite := [], failChmod := [], failChown := [],
    renameErr := [], euid := 0, egid := 0, tempSeed := "123" }

/-- A baseline template resource for concrete runs. -/
def baseRes : TemplateResource :=
  { checkCmd := "", dest := "/etc/app.conf", fileMode := 420, gid := 0, group := "",
    keys := ["/db/host"], mode := "", owner := "", pfx := "/app/", reloadCmd := "",
    src := "/etc/confd/templates/app.tmpl", stageFileName := "/etc/.app.conf123",
    uid := 0, keepStageFile := false, noop := false, store := [("/stale", "v")],
    syncOnly := false }

/-- An identity directory with no resolvable names. -/
def uenv0 : UserEnv :=
  { lookupUser := fun _ => Except.error "no such user",
    lookupGroup := fun _ => Except.error "no such group", euid := 1000, egid := 1000 }

/-- A processing configuration whose store client is nil. -/
def cfgNilClient : ProcessConfig :=
  { keepStageFile := false, noop := false, pfx := "", storeClient := none,
    syncOnly := false, templateDir := "/etc/confd/templates" }

/-- A backend client that always fails. -/
def failingClient : StoreClient :=
  { getValues := fun _ => Except.error "backend unavailable" }

/-- A backend client returning one key under the /app/ prefix. -/
def cl7 : StoreClient :=
  { getValues := fun _ => Except.ok [("/app/db/host", "x")] }

/-- A shell in which every command succeeds. -/
def okCmdEnv : CmdEnv := { run := fun _ => Except.ok () }

/-- C10: for every call to NewTemplateResource with a nil StoreClient in the
processing configuration, the constructor returns an error and no resource,
regardless of the descriptor (which is never decoded: the result is the same
for every decoded value, including a decode failure). -/
theorem newTemplateResource_nil_client (uenv : UserEnv)
    (decoded : Except String RawResource) (config : ProcessConfig)
    (h : config.storeClient = none) :
    NewTemplateResource uenv decoded config =
      Except.error "A valid StoreClient is required." := by
  simp [NewTemplateResource, h]

/-- Witness for C10 at a concrete configuration, with a failing decode showing
the descriptor contents are irrelevant. -/
theorem newTemplateResource_nil_client_witness :
    NewTemplateResource uenv0 (Except.error "unreadable descriptor") cfgNilClient =
      Except.error "A valid StoreClient is required." :=
  newTemplateResource_nil_client uenv0 (Except.error "unreadable descriptor")
    cfgNilClient rfl

/-- C3: when the backend GetValues call fails, setVars returns that error and
the resource, in particular its store, is exactly what it was before the
call. -/
theorem setVars_backend_error (client : StoreClient) (t : TemplateResource)
    (e : String) (h : client.getValues (AppendPfx t.pfx t.keys) = Except.error e) :
    setVars client t = (Except.error e, t) := by
  simp [setVars, h]

/-- Witness for C3: a failing backend leaves the stale store entry in place. -/
theorem setVars_backend_error_witness :
    setVars failingClient baseRes = (Except.error "backend unavailable", baseRes) ∧
    storeGet (setVars failingClient baseRes).2.store "/stale" = some "v" := by
  have h := setVars_backend_error failingClient baseRes "backend unavailable" rfl
  exact ⟨h, by rw [h]; rfl⟩

/-- C7: after a successful refresh the store holds exactly the normalized
backend keys: a key is present iff some backend key normalizes to it
(prefix stripped, remainder re-rooted under "/"), and when the normalized
keys are distinct each backend entry is found under its normalized key. -/
theorem setVars_normalizes (client : StoreClient) (t : TemplateResource)
    (result : List (String × String))
    (h : client.getValues (AppendPfx t.pfx t.keys) = Except.ok result) :
    (setVars client t).1 = Except.ok () ∧
    (∀ q, (storeGet (setVars client t).2.store q).isSome =
       result.any (fun kv => normKey t.pfx kv.1 = q)) ∧
    (∀ k v, (k, v) ∈ result →
       (result.map (fun kv => normKey t.pfx kv.1)).Nodup →
       storeGet (setVars client t).2.store (normKey t.pfx k) = some v) := by
  refine ⟨by simp [setVars, h], ?_, ?_⟩
  · intro q
    simp only [setVars, h]
    rw [storeFold_isSome]
    simp [storeGet]
  · intro k v hmem hnd
    simp only [setVars, h]
    exact storeFold_value t.pfx result [] k v hmem hnd

/-- Witness for C7: prefix "/app/" and backend key "/app/db/host" with value
x put "/db/host" in the store and leave "/app/db/host" absent. -/
theorem setVars_normalizes_witness :
    storeGet (setVars cl7 baseRes).2.store "/db/host" = some "x" ∧
    storeGet (setVars cl7 baseRes).2.store "/app/db/host" = none := by
  have h := setVars_normalizes cl7 baseRes [("/app/db/host", "x")] rfl
  refine ⟨h.2.2 "/app/db/host" "x" (by simp) (by simp), ?_⟩
  have h2 := h.2.1 "/app/db/host"
  have h3 : (storeGet (setVars cl7 baseRes).2.store "/app/db/host").isSome = false := by
    rw [h2]; rfl
  simpa using h3

/-- C6: with no explicit mode configured the resolved file mode is the
current mode of the existing destination, or 0644 (420) when the destination does
not exist; with an explicit mode string the resolved mode is that string
parsed as a base-0 number, and the cycle fails when parsing fails. -/
theorem setFileMode_resolves (t : TemplateResource) (s : Sys) :
    (t.mode = "" → lookupFile s t.dest = none →
       setFileMode t s = Except.ok { t with fileMode := 420 }) ∧
    (∀ f, t.mode = "" → lookupFile s t.dest = some f →
       setFileMode t s = Except.ok { t with fileMode := f.mode }) ∧
    (∀ m, ¬ t.mode = "" → parseUintBase0 t.mode = some m →
       setFileMode t s = Except.ok { t with fileMode := m }) ∧
    (¬ t.mode = "" → parseUintBase0 t.mode = none →
       ∃ e, setFileMode t s = Except.error e) := by
  refine ⟨?_, ?_, ?_, ?_⟩
  · intro hm hd; simp [setFileMode, hm, IsFileExist, hd]
  · intro f hm hd; simp [setFileMode, hm, IsFileExist, hd, sysStat]
  · intro m hm hp; simp [setFileMode, hm, hp]
  · intro hm hp; simp [setFileMode, hm, hp]

/-- A filesystem whose destination file has mode 0640 (416). -/
def sys640 : Sys :=
  { emptySys with files :=
      [("/etc/app.conf", { content := "old", mode := 416, uid := 0, gid := 0 })] }

/-- Witness for C6: an existing destination with mode 0640 is inherited, a
missing destination yields 0644, and the explicit string "0644" parses to
0644 octal. -/
theorem setFileMode_resolves_witness :
    setFileMode baseRes sys640 = Except.ok { baseRes with fileMode := 416 } ∧
    setFileMode baseRes emptySys = Except.ok { baseRes with fileMode := 420 } ∧
    setFileMode { baseRes with mode := "0644" } emptySys =
      Except.ok { baseRes with mode := "0644", fileMode := 420 } := by
  refine ⟨?_, ?_, ?_⟩
  · exact (setFileMode_resolves baseRes sys640).2.1
      { content := "old", mode := 416, uid := 0, gid := 0 } rfl rfl
  · exact (setFileMode_resolves baseRes emptySys).1 rfl rfl
  · exact (setFileMode_resolves { baseRes with mode := "0644" } emptySys).2.2.1 420
      (by decide) (by decide)

/-- C2: spec-modelled diff decision. For files that both exist and open
without fault, the changed-vs-unchanged verdict is a function of the two
byte contents of the two files only: it is "changed" exactly when the contents differ,
whatever the owner, group or mode of either file, and no comparison error is
reported. -/
theorem diff_decision_content_only (s : Sys) (staged dest : String)
    (fd fst : GoFile) (hd : lookupFile s dest = some fd)
    (hs : lookupFile s staged = some fst)
    (hod : ¬ dest ∈ s.failOpen) (hos : ¬ staged ∈ s.failOpen) :
    ((IsConfigChanged s staged dest).1 = true ↔ ¬ fd.content = fst.content) ∧
    (IsConfigChanged s staged dest).2 = none := by
  simp [IsConfigChanged, FileStat, IsFileExist, hd, hs, hod, hos]

/-- A filesystem where candidate and destination have equal bytes but
different mode, owner and group. -/
def sysDiffOwner : Sys :=
  { emptySys with files :=
      [("/etc/app.conf", { content := "same", mode := 420, uid := 0, gid := 0 }),
       ("/etc/.app.conf123", { content := "same", mode := 384, uid := 1000, gid := 1000 })] }

/-- Witness for C2: equal bytes with differing ownership and mode are
reported unchanged. -/
theorem diff_decision_content_only_witness :
    (IsConfigChanged sysDiffOwner "/etc/.app.conf123" "/etc/app.conf").1 = false := by
  have h := (diff_decision_content_only sysDiffOwner "/etc/.app.conf123" "/etc/app.conf"
    { content := "same", mode := 420, uid := 0, gid := 0 }
    { content := "same", mode := 384, uid := 1000, gid := 1000 }
    rfl rfl (by decide) (by decide)).1
  simpa using h

/-- C1: when the candidate differs from the destination, a check command is
configured, sync-only is not set (and noop is not set, otherwise the check
command is never executed), a failing check command makes sync return an
error and leaves the destination binding (content, mode, ownership) exactly
as before the cycle: no rename, write or chown of the destination occurs. -/
theorem check_failure_blocks_commit (env : CmdEnv) (t : TemplateResource)
    (s : Sys) (e : String)
    (hnoop : t.noop = false) (hsync : t.syncOnly = false) (hcmd : ¬ t.checkCmd = "")
    (hchanged : (IsConfigChanged s t.stageFileName t.dest).1 = true)
    (hfail : env.run (renderCheckCmd t.checkCmd t.stageFileName) = Except.error e)
    (hne : ¬ t.dest = t.stageFileName) :
    (sync env t s).1 = Except.error ("Config check failed: " ++ e) ∧
    lookupFile (sync env t s).2 t.dest = lookupFile s t.dest := by
  cases ht : t.keepStageFile <;>
    simp [sync, hnoop, hchanged, hsync, hcmd, runCheck, hfail, ht,
      lookupFile_removeFile, hne]

/-- A shell in which exactly the command "check /etc/.app.conf123" fails. -/
def failCheckEnv : CmdEnv :=
  { run := fun c =>
      if c = "check /etc/.app.conf123" then Except.error "exit status 1"
      else Except.ok () }

/-- A resource whose check command references the staged file. -/
def checkRes : TemplateResource :=
  { baseRes with checkCmd := "check \x7b\x7b.src\x7d\x7d" }

/-- A filesystem where the candidate content differs from the destination. -/
def sysChanged : Sys :=
  { emptySys with files :=
      [("/etc/app.conf", { content := "old", mode := 420, uid := 0, gid := 0 }),
       ("/etc/.app.conf123", { content := "new", mode := 420, uid := 0, gid := 0 })] }

/-- Witness for C1: a concrete failing check leaves the old destination in
place and sync reports the check failure. -/
theorem check_failure_blocks_commit_witness :
    (sync failCheckEnv checkRes sysChanged).1 =
      Except.error ("Config check failed: " ++ "exit status 1") ∧
    lookupFile (sync failCheckEnv checkRes sysChanged).2 "/etc/app.conf" =
      some { content := "old", mode := 420, uid := 0, gid := 0 } := by
  have h := check_failure_blocks_commit failCheckEnv checkRes sysChanged
    "exit status 1" rfl rfl (by decide) (by decide) rfl (by decide)
  exact ⟨h.1, by rw [show ("/etc/app.conf" : String) = checkRes.dest from rfl, h.2]; rfl⟩

/-- C4 (amended): with noop enabled sync performs no destination mutation and
returns the bare success value; the changed verdict is not part of the
returned result. -/
theorem noop_suppresses_commit (env : CmdEnv) (t : TemplateResource) (s : Sys)
    (hnoop : t.noop = true) (hne : ¬ t.dest = t.stageFileName) :
    (sync env t s).1 = Except.ok () ∧
    lookupFile (sync env t s).2 t.dest = lookupFile s t.dest := by
  cases ht : t.keepStageFile <;>
    simp [sync, hnoop, ht, lookupFile_removeFile, hne]

/-- The baseline resource with noop enabled. -/
def noopRes : TemplateResource := { baseRes with noop := true }

/-- The changed filesystem with the destination already equal to the
candidate. -/
def sysUnchanged : Sys :=
  { emptySys with files :=
      [("/etc/app.conf", { content := "new", mode := 420, uid := 0, gid := 0 }),
       ("/etc/.app.conf123", { content := "new", mode := 420, uid := 0, gid := 0 })] }

/-- Counterexample to C4 as stated: under noop with differing content, sync
returns the bare value Except.ok (), the same caller-visible result it
returns when the contents are identical, so the "would have changed" verdict
is not surfaced to the caller through the result of the pipeline (it is only
logged). -/
theorem noop_changed_verdict_not_surfaced :
    (sync okCmdEnv noopRes sysChanged).1 = Except.ok () ∧
    (sync okCmdEnv noopRes sysUnchanged).1 = Except.ok () := by
  exact ⟨rfl, rfl⟩

/-- Witness for the amended C4 at the changed noop fixture: success is
returned and the old destination content survives the cycle. -/
theorem noop_suppresses_commit_witness :
    (sync okCmdEnv noopRes sysChanged).1 = Except.ok () ∧
    lookupFile (sync okCmdEnv noopRes sysChanged).2 "/etc/app.conf" =
      some { content := "old", mode := 420, uid := 0, gid := 0 } := by
  have h := noop_suppresses_commit okCmdEnv noopRes sysChanged rfl (by decide)
  exact ⟨h.1, by rw [show ("/etc/app.conf" : String) = noopRes.dest from rfl, h.2]; rfl⟩

/-- C9 (amended): a failure of the candidate-vs-destination comparison does
not abort the cycle and is not surfaced: sync only logs it; in particular
under noop sync returns success with the destination untouched even though
the comparison reported an error. -/
theorem comparison_error_not_surfaced (env : CmdEnv) (t : TemplateResource)
    (s : Sys) (e : String)
    (_herr : (IsConfigChanged s t.stageFileName t.dest).2 = some e)
    (hnoop : t.noop = true) (hne : ¬ t.dest = t.stageFileName) :
    (sync env t s).1 = Except.ok () ∧
    lookupFile (sync env t s).2 t.dest = lookupFile s t.dest := by
  cases ht : t.keepStageFile <;>
    simp [sync, hnoop, ht, lookupFile_removeFile, hne]

/-- The changed filesystem with an injected open fault on the destination, so
the comparison itself fails. -/
def sysCmpFail : Sys := { sysChanged with failOpen := ["/etc/app.conf"] }

/-- Counterexample to C9 as stated: the comparison fails with an error, yet
sync returns success - the error is logged only, not surfaced to the
caller, and the cycle is not aborted by it. -/
theorem comparison_error_swallowed :
    (IsConfigChanged sysCmpFail "/etc/.app.conf123" "/etc/app.conf").2 =
      some "open /etc/app.conf: injected fault" ∧
    (sync okCmdEnv noopRes sysCmpFail).1 = Except.ok () := by
  exact ⟨rfl, rfl⟩

/-- Witness for the amended C9 at the faulted fixture. -/
theorem comparison_error_not_surfaced_witness :
    (sync okCmdEnv noopRes sysCmpFail).1 = Except.ok () ∧
    lookupFile (sync okCmdEnv noopRes sysCmpFail).2 "/etc/app.conf" =
      some { content := "old", mode := 420, uid := 0, gid := 0 } := by
  have h := comparison_error_not_surfaced okCmdEnv noopRes sysCmpFail
    "open /etc/app.conf: injected fault" rfl rfl (by decide)
  exact ⟨h.1, by rw [show ("/etc/app.conf" : String) = noopRes.dest from rfl, h.2]; rfl⟩

/-- setFile leaves the chown fault set unchanged. -/
theorem setFile_failChown (s : Sys) (p : String) (f : GoFile) :
    (setFile s p f).failChown = s.failChown := rfl

/-- Under "changed", noop unset and a passing (or absent) check gate, sync is
the commit step followed by the deferred staged-file removal. -/
theorem sync_reaches_commit (env : CmdEnv) (t : TemplateResource) (s : Sys)
    (hnoop : t.noop = false)
    (hchanged : (IsConfigChanged s t.stageFileName t.dest).1 = true)
    (hck : t.syncOnly = false ∧ ¬ t.checkCmd = "" → runCheck env t = Except.ok ()) :
    sync env t s =
      ((syncCommit env t s).1,
       if t.keepStageFile = true then (syncCommit env t s).2
       else removeFile (syncCommit env t s).2 t.stageFileName) := by
  by_cases hc : t.syncOnly = false ∧ ¬ t.checkCmd = ""
  · have hrc := hck hc
    simp [sync, hnoop, hchanged, hc, hrc]
  · simp [sync, hnoop, hchanged, hc]

/-- The busy-rename fallback of the commit step: when the rename error
message contains "device or resource busy" and the fallback read, write and
chown succeed, the commit succeeds and the destination holds the staged
content with ownership re-applied; the mode is the pre-existing destination
mode, or the resolved mode when the destination is created by the write. -/
theorem syncCommit_busy (env : CmdEnv) (t : TemplateResource) (s : Sys)
    (msg c : String)
    (hrn : sysRename s t.stageFileName t.dest = Except.error msg)
    (hbusy : strContainsSub msg "device or resource busy" = true)
    (hrd : aferoReadFile s t.stageFileName = Except.ok c)
    (hw : ¬ t.dest ∈ s.failWrite) (hco : ¬ t.dest ∈ s.failChown)
    (hrl : t.syncOnly = false ∧ ¬ t.reloadCmd = "" → env.run t.reloadCmd = Except.ok ()) :
    (syncCommit env t s).1 = Except.ok () ∧
    lookupFile (syncCommit env t s).2 t.dest =
      some { content := c,
             mode := match lookupFile s t.dest with
                     | some f => f.mode
                     | none => t.fileMode,
             uid := t.uid, gid := t.gid } := by
  have hrel : ∀ s2 : Sys, syncReload env t s2 = (Except.ok (), s2) := by
    intro s2
    by_cases hr : t.syncOnly = false ∧ ¬ t.reloadCmd = ""
    · simp [syncReload, hr, hrl hr]
    · simp [syncReload, hr]
  cases hdest : lookupFile s t.dest with
  | some f =>
    have hwf : aferoWriteFile s t.dest c t.fileMode =
        Except.ok (setFile s t.dest { f with content := c }) := by
      simp [aferoWriteFile, hw, hdest]
    have hlk : lookupFile (setFile s t.dest { f with content := c }) t.dest =
        some { f with content := c } := by
      rw [lookupFile_setFile]; simp
    have hch : chownIgnore (setFile s t.dest { f with content := c }) t.dest t.uid t.gid =
        setFile (setFile s t.dest { f with content := c }) t.dest
          { f with content := c, uid := t.uid, gid := t.gid } := by
      simp [chownIgnore, sysChown, hco, hlk, setFile_failChown]
    constructor <;>
      simp [syncCommit, hrn, hbusy, hrd, hwf, hch, hrel, lookupFile_setFile]
  | none =>
    have hwf : aferoWriteFile s t.dest c t.fileMode =
        Except.ok (setFile s t.dest
          { content := c, mode := t.fileMode, uid := s.euid, gid := s.egid }) := by
      simp [aferoWriteFile, hw, hdest]
    have hlk : lookupFile (setFile s t.dest
        { content := c, mode := t.fileMode, uid := s.euid, gid := s.egid }) t.dest =
        some { content := c, mode := t.fileMode, uid := s.euid, gid := s.egid } := by
      rw [lookupFile_setFile]; simp
    have hch : chownIgnore
        (setFile s t.dest { content := c, mode := t.fileMode, uid := s.euid, gid := s.egid })
        t.dest t.uid t.gid =
        setFile (setFile s t.dest
          { content := c, mode := t.fileMode, uid := s.euid, gid := s.egid }) t.dest
          { content := c, mode := t.fileMode, uid := t.uid, gid := t.gid } := by
      simp [chownIgnore, sysChown, hco, hlk, setFile_failChown]
    constructor <;>
      simp [syncCommit, hrn, hbusy, hrd, hwf, hch, hrel, lookupFile_setFile]

/-- A rename failure whose message does not mention the busy resource is
returned as is by the commit step, with the filesystem untouched. -/
theorem syncCommit_other (env : CmdEnv) (t : TemplateResource) (s : Sys)
    (msg : String)
    (hrn : sysRename s t.stageFileName t.dest = Except.error msg)
    (hbusy : strContainsSub msg "device or resource busy" = false) :
    syncCommit env t s = (Except.error msg, s) := by
  simp [syncCommit, hrn, hbusy]

/-- C5 (amended): when the commit rename fails with a message containing
"device or resource busy", sync reads the staged content, overwrites the
destination by truncating write with the resolved mode and re-applies
ownership, and the cycle succeeds provided the fallback read, write and chown
succeed and any configured reload command succeeds; a rename failure without
that substring is returned by sync as is. -/
theorem rename_busy_fallback (env : CmdEnv) (t : TemplateResource) (s : Sys)
    (hnoop : t.noop = false)
    (hchanged : (IsConfigChanged s t.stageFileName t.dest).1 = true)
    (hck : t.syncOnly = false ∧ ¬ t.checkCmd = "" → runCheck env t = Except.ok ())
    (hne : ¬ t.dest = t.stageFileName) :
    (∀ msg c, sysRename s t.stageFileName t.dest = Except.error msg →
       strContainsSub msg "device or resource busy" = true →
       aferoReadFile s t.stageFileName = Except.ok c →
       ¬ t.dest ∈ s.failWrite → ¬ t.dest ∈ s.failChown →
       (t.syncOnly = false ∧ ¬ t.reloadCmd = "" → env.run t.reloadCmd = Except.ok ()) →
       (sync env t s).1 = Except.ok () ∧
       lookupFile (sync env t s).2 t.dest =
         some { content := c,
                mode := match lookupFile s t.dest with
                        | some f => f.mode
                        | none => t.fileMode,
                uid := t.uid, gid := t.gid }) ∧
    (∀ msg, sysRename s t.stageFileName t.dest = Except.error msg →
       strContainsSub msg "device or resource busy" = false →
       (sync env t s).1 = Except.error msg) := by
  have hs := sync_reaches_commit env t s hnoop hchanged hck
  constructor
  · intro msg c hrn hbusy hrd hw hco hrl
    have hb := syncCommit_busy env t s msg c hrn hbusy hrd hw hco hrl
    refine ⟨by rw [hs]; exact hb.1, ?_⟩
    rw [hs]
    cases ht : t.keepStageFile
    · simp only [Bool.false_eq_true, if_false]
      rw [lookupFile_removeFile, if_neg hne]
      exact hb.2
    · simp only [if_true]
      exact hb.2
  · intro msg hrn hbusy
    rw [hs]
    have ho := syncCommit_other env t s msg hrn hbusy
    rw [ho]

/-- The changed filesystem with a busy-mount rename failure injected at the
destination. -/
def busySys : Sys :=
  { sysChanged with renameErr :=
      [("/etc/app.conf", "rename /etc/.app.conf123 /etc/app.conf: device or resource busy")] }

/-- The baseline resource with a reload command configured. -/
def reloadRes : TemplateResource := { baseRes with reloadCmd := "svc reload app" }

/-- A shell in which exactly the reload command fails. -/
def failReloadEnv : CmdEnv :=
  { run := fun c =>
      if c = "svc reload app" then Except.error "exit status 1" else Except.ok () }

/-- Counterexample to C5 as stated: the rename fails busy and the whole
fallback (read, truncating write, chown) succeeds - the destination ends up
committed with the staged content - yet the cycle does not succeed: the
configured reload command fails afterwards and sync returns its error. -/
theorem busy_fallback_cycle_can_fail :
    (sync failReloadEnv reloadRes busySys).1 = Except.error "exit status 1" ∧
    lookupFile (sync failReloadEnv reloadRes busySys).2 "/etc/app.conf" =
      some { content := "new", mode := 420, uid := 0, gid := 0 } := by
  exact ⟨rfl, rfl⟩

/-- The changed filesystem with a non-busy rename failure injected at the
destination. -/
def denySys : Sys :=
  { sysChanged with renameErr := [("/etc/app.conf", "rename: permission denied")] }

/-- Witness for the amended C5: with a succeeding reload the busy fallback
commits the staged content with ownership re-applied and the cycle succeeds,
and a non-busy rename failure is returned as is. -/
theorem rename_busy_fallback_witness :
    (sync okCmdEnv reloadRes busySys).1 = Except.ok () ∧
    lookupFile (sync okCmdEnv reloadRes busySys).2 "/etc/app.conf" =
      some { content := "new", mode := 420, uid := 0, gid := 0 } ∧
    (sync okCmdEnv baseRes denySys).1 = Except.error "rename: permission denied" := by
  have hA := (rename_busy_fallback okCmdEnv reloadRes busySys rfl (by decide)
    (fun hc => absurd rfl hc.2) (by decide)).1
    "rename /etc/.app.conf123 /etc/app.conf: device or resource busy" "new"
    rfl (by decide) rfl (by decide) (by decide) (fun _ => rfl)
  have hB := (rename_busy_fallback okCmdEnv baseRes denySys rfl (by decide)
    (fun hc => absurd rfl hc.2) (by decide)).2
    "rename: permission denied" rfl (by decide)
  refine ⟨hA.1, ?_, hB⟩
  rw [show ("/etc/app.conf" : String) = reloadRes.dest from rfl, hA.2]
  rfl

/-- chmodIgnore never changes any file content. -/
theorem chmodIgnore_content (s : Sys) (p : String) (mode : Nat) (q : String) :
    (lookupFile (chmodIgnore s p mode) q).map (fun f => f.content) =
      (lookupFile s q).map (fun f => f.content) := by
  unfold chmodIgnore sysChmod
  by_cases hf : p ∈ s.failChmod
  · simp [hf]
  · cases hl : lookupFile s p with
    | none => simp [hf, hl]
    | some f =>
      simp only [hf, if_false, hl]
      by_cases hq : q = p <;> simp [lookupFile_setFile, hq, hl]

/-- chownIgnore never changes any file content. -/
theorem chownIgnore_content (s : Sys) (p : String) (uid gid : Int) (q : String) :
    (lookupFile (chownIgnore s p uid gid) q).map (fun f => f.content) =
      (lookupFile s q).map (fun f => f.content) := by
  unfold chownIgnore sysChown
  by_cases hf : p ∈ s.failChown
  · simp [hf]
  · cases hl : lookupFile s p with
    | none => simp [hf, hl]
    | some f =>
      simp only [hf, if_false, hl]
      by_cases hq : q = p <;> simp [lookupFile_setFile, hq, hl]

/-- C8 (amended): any render failure or temp-file-creation failure in the
staging step returns an error and leaves no temp file behind (a failed
render removes the partially written temp file); but failures applying the
resolved mode and ownership are ignored: when rendering succeeds the step
succeeds whatever the chmod/chown faults, staging the temp file with the
rendered content. -/
theorem createStageFile_cleanup (env : RenderEnv) (t : TemplateResource) (s : Sys)
    (hfresh : lookupFile s (tempName s t.dest) = none) :
    ((∃ e, (CreateStageFile env t s).1 = Except.error e) →
       lookupFile (CreateStageFile env t s).2.2 (tempName s t.dest) = none) ∧
    (∀ srcF bytes, lookupFile s t.src = some srcF →
       env.parse srcF.content = Except.ok () →
       ¬ tempName s t.dest ∈ s.failWrite →
       env.execute srcF.content = Except.ok bytes →
       (CreateStageFile env t s).1 = Except.ok () ∧
       (CreateStageFile env t s).2.1.stageFileName = tempName s t.dest ∧
       (lookupFile (CreateStageFile env t s).2.2 (tempName s t.dest)).map
         (fun f => f.content) = some bytes) := by
  constructor
  · intro he
    by_cases h1 : IsFileExist s t.src
    · cases hsf : lookupFile s t.src with
      | none => simp [IsFileExist, hsf] at h1
      | some srcF =>
        cases hp : env.parse srcF.content with
        | error e => simp [CreateStageFile, h1, hsf, hp, hfresh]
        | ok u =>
          by_cases hw : tempName s t.dest ∈ s.failWrite
          · simp [CreateStageFile, h1, hsf, hp, hw, hfresh]
          · cases hex : env.execute srcF.content with
            | error e =>
              simp [CreateStageFile, h1, hsf, hp, hw, hex, lookupFile_removeFile]
            | ok bytes =>
              exfalso
              obtain ⟨e, he⟩ := he
              simp [CreateStageFile, h1, hsf, hp, hw, hex] at he
    · simp [CreateStageFile, h1, hfresh]
  · intro srcF bytes hsf hp hw hex
    have h1 : IsFileExist s t.src = true := by simp [IsFileExist, hsf]
    refine ⟨?_, ?_, ?_⟩
    · simp [CreateStageFile, h1, hsf, hp, hw, hex]
    · simp [CreateStageFile, h1, hsf, hp, hw, hex]
    · simp [CreateStageFile, h1, hsf, hp, hw, hex, chownIgnore_content,
        chmodIgnore_content, lookupFile_setFile]

/-- A filesystem holding the source template, with a chown fault injected at
the upcoming temp-file path. -/
def tmplSys : Sys :=
  { emptySys with
    files := [("/etc/confd/templates/app.tmpl",
               { content := "tpl", mode := 420, uid := 0, gid := 0 })],
    failChown := ["/etc/.app.conf123"] }

/-- A renderer that parses and renders the template successfully. -/
def renvOk : RenderEnv :=
  { parse := fun _ => Except.ok (), execute := fun _ => Except.ok "new" }

/-- A renderer whose execution fails. -/
def renvFail : RenderEnv :=
  { parse := fun _ => Except.ok (), execute := fun _ => Except.error "render failed" }

/-- The baseline resource with a non-default owner configured. -/
def ownRes : TemplateResource := { baseRes with uid := 1000, gid := 1000 }

/-- Counterexample to C8 as stated: applying ownership to the temp file fails
(injected chown fault), yet CreateStageFile returns success and keeps the
staged file, whose owner is still the effective uid 0 instead of the
configured 1000 - the chown failure neither errors nor removes the file. -/
theorem chown_failure_ignored_in_staging :
    (CreateStageFile renvOk ownRes tmplSys).1 = Except.ok () ∧
    (lookupFile (CreateStageFile renvOk ownRes tmplSys).2.2 "/etc/.app.conf123").map
      (fun f => f.uid) = some 0 := by
  exact ⟨rfl, rfl⟩

/-- Witness for the amended C8: a failed render leaves no temp file, and a
successful render stages the file even under the chown fault. -/
theorem createStageFile_cleanup_witness :
    lookupFile (CreateStageFile renvFail baseRes tmplSys).2.2 "/etc/.app.conf123" = none ∧
    (CreateStageFile renvOk ownRes tmplSys).1 = Except.ok () := by
  have h1 := (createStageFile_cleanup renvFail baseRes tmplSys rfl).1 ⟨"render failed", rfl⟩
  have h2 := (createStageFile_cleanup renvOk ownRes tmplSys rfl).2
    { content := "tpl", mode := 420, uid := 0, gid := 0 } "new" rfl rfl (by decide) rfl
  exact ⟨by rw [show ("/etc/.app.conf123" : String) =
    tempName tmplSys baseRes.dest from rfl]; exact h1, h2.1⟩
